import Mathlib

set_option maxRecDepth 8000

/-!
Verification of the dependency-extraction, position-arithmetic, HTTP
classification and specifier-normalization core of a module-loading plugin
(rs_lib: module_analyzer.rs, http_client.rs, lib.rs).

Source text is modelled as a list of bytes (`List Nat`, newline = 10), since
the Rust code iterates `source.bytes()` and positions are byte-based.
-/

/-- ASCII helper: the byte list of an ASCII string (for ASCII text the char
codes are exactly the UTF-8 bytes). -/
def asciiBytes (s : String) : List Nat :=
  s.data.map Char.toNat

/-- `deno_graph::Position`: zero-based line, zero-based byte offset in line. -/
structure Position where
  line : Nat
  character : Nat
deriving DecidableEq

/-- `deno_graph::PositionRange` (Rust fields `start`/`end`; `end` is a Lean
keyword so the second field is named `stop`). -/
structure PositionRange where
  start : Position
  stop : Position
deriving DecidableEq

/-- `oxc::span::Span`: half-open byte range (Rust fields `start`/`end`). -/
structure Span where
  start : Nat
  stop : Nat
deriving DecidableEq

/-- The loop of `byte_index_to_position` (module_analyzer.rs): walks the
bytes with index `i`, stopping at `i = index`, counting newlines into `line`
and recording `last_line_start` (`lls`) as one past each newline seen.
Returns the final `(line, last_line_start)` pair. -/
def byteIndexLoop : List Nat → Nat → Nat → Nat → Nat → Nat × Nat
  | [], _, _, line, lls => (line, lls)
  | b :: rest, i, index, line, lls =>
    if i = index then (line, lls)
    else if b = 10 then byteIndexLoop rest (i + 1) index (line + 1) (i + 1)
    else byteIndexLoop rest (i + 1) index line lls

/-- `byte_index_to_position` (module_analyzer.rs): scan from the start of
the text counting newline bytes up to the target byte offset. -/
def byte_index_to_position (source : List Nat) (index : Nat) : Position :=
  let p := byteIndexLoop source 0 index 0 0
  { line := p.1, character := index - p.2 }

/-- `span_to_position_range` (module_analyzer.rs). -/
def span_to_position_range (source : List Nat) (span : Span) : PositionRange :=
  { start := byte_index_to_position source span.start
    stop := byte_index_to_position source span.stop }

/-- Specification-side: the index one past the last newline of `pre`
(0 when `pre` has no newline), computed front to back; `i` is the index of
the head of the remaining list and `acc` the best answer so far. -/
def lastLineStartFrom : List Nat → Nat → Nat → Nat
  | [], _, acc => acc
  | b :: rest, i, acc => lastLineStartFrom rest (i + 1) (if b = 10 then i + 1 else acc)

/-- Specification-side: index one past the last newline byte of `pre`,
or 0 when `pre` contains none. -/
def lastLineStart (pre : List Nat) : Nat :=
  lastLineStartFrom pre 0 0

/-- Specification-side: the position of the end of the last line of `d`
(line = number of newlines in `d`, character = length of the last line). -/
def endOfLastLinePos (d : List Nat) : Position :=
  { line := d.count 10, character := d.length - lastLineStart d }

theorem byteIndexLoop_spec (src : List Nat) :
    ∀ (i index line lls : Nat), i ≤ index →
      byteIndexLoop src i index line lls
        = (line + (src.take (index - i)).count 10,
           lastLineStartFrom (src.take (index - i)) i lls) := by
  induction src with
  | nil =>
    intro i index line lls _
    simp [byteIndexLoop, lastLineStartFrom]
  | cons b rest ih =>
    intro i index line lls hle
    by_cases heq : i = index
    · subst heq
      simp [byteIndexLoop, lastLineStartFrom]
    · have hlt : i < index := lt_of_le_of_ne hle heq
      have hsub : index - i = (index - (i + 1)) + 1 := by omega
      rw [hsub]
      simp only [List.take_succ_cons]
      by_cases hb : b = 10
      · subst hb
        rw [show byteIndexLoop (10 :: rest) i index line lls
              = byteIndexLoop rest (i + 1) index (line + 1) (i + 1) by
            simp [byteIndexLoop, heq]]
        rw [ih (i + 1) index (line + 1) (i + 1) (by omega)]
        simp [lastLineStartFrom, List.count_cons]
        omega
      · rw [show byteIndexLoop (b :: rest) i index line lls
              = byteIndexLoop rest (i + 1) index line lls by
            simp [byteIndexLoop, heq, hb]]
        rw [ih (i + 1) index line lls (by omega)]
        simp [lastLineStartFrom, List.count_cons, hb]

theorem byte_index_to_position_eq (d : List Nat) (o : Nat) :
    byte_index_to_position d o
      = { line := (d.take o).count 10, character := o - lastLineStart (d.take o) } := by
  unfold byte_index_to_position lastLineStart
  rw [byteIndexLoop_spec d 0 o 0 0 (Nat.zero_le o)]
  simp

/-- C7: for every byte offset `o` with `o ≤ length d`, the position's line
is the number of newline bytes in `d[0..o]` and its character is `o` minus
the index one past the last newline before `o` (0, hence character `o`,
when there is none). -/
theorem c7_position_characterization (d : List Nat) (o : Nat) (h : o ≤ d.length) :
    byte_index_to_position d o
      = { line := (d.take o).count 10, character := o - lastLineStart (d.take o) } :=
  byte_index_to_position_eq d o

/-- Witness for C7 at `d = "ab\ncd"`, `o = 4`. -/
theorem c7_position_characterization_witness :
    byte_index_to_position (asciiBytes ("ab\ncd")) 4
      = { line := ((asciiBytes ("ab\ncd")).take 4).count 10,
          character := 4 - lastLineStart ((asciiBytes ("ab\ncd")).take 4) } :=
  c7_position_characterization (asciiBytes ("ab\ncd")) 4 (by decide)

/-- C2 counterexample: for `d = "a"` (one byte, no newline) and offset 2,
which is strictly after the end of `d`, `byte_index_to_position` returns
character 2, not the end-of-last-line position (0, 1). -/
theorem c2_beyond_end_counterexample :
    1 ≤ 2 ∧ (asciiBytes ("a")).length ≤ 2 ∧
      byte_index_to_position (asciiBytes ("a")) 2 ≠ endOfLastLinePos (asciiBytes ("a")) := by
  refine ⟨by decide, by decide, ?_⟩
  decide

/-- C2 (amended): offset 0 yields (0, 0); offset exactly at the end of `d`
yields the position of the end of the last line; offsets strictly beyond the
end yield line = total newline count and character = offset minus the
last-line start (which can exceed the last line's length). The function is
total, so it cannot panic or read out of bounds. -/
theorem c2_position_edge_cases (d : List Nat) :
    byte_index_to_position d 0 = { line := 0, character := 0 }
    ∧ byte_index_to_position d d.length = endOfLastLinePos d
    ∧ ∀ o, d.length ≤ o →
        byte_index_to_position d o = { line := d.count 10, character := o - lastLineStart d } := by
  refine ⟨?_, ?_, ?_⟩
  · rw [byte_index_to_position_eq]
    simp [lastLineStart, lastLineStartFrom]
  · rw [byte_index_to_position_eq]
    simp [endOfLastLinePos]
  · intro o ho
    rw [byte_index_to_position_eq]
    rw [List.take_of_length_le ho]

/-- Witness for C2 (amended) at `d = "a\nbc"`, beyond-end offset 7. -/
theorem c2_position_edge_cases_witness :
    byte_index_to_position (asciiBytes ("a\nbc")) 7
      = { line := (asciiBytes ("a\nbc")).count 10,
          character := 7 - lastLineStart (asciiBytes ("a\nbc")) } :=
  (c2_position_edge_cases (asciiBytes ("a\nbc"))).2.2 7 (by decide)

/-- `oxc::ast::StringLiteral` as seen by the collector: its (cooked) value
bytes and its source span. -/
structure StringLiteral where
  value : List Nat
  span : Span
deriving DecidableEq

/-- One quasi (literal segment) of a template literal: its cooked value, or
none when the segment has no cooked form. -/
structure TemplateQuasi where
  cooked : Option (List Nat)
deriving DecidableEq

/-- The shapes of the argument of an `ImportExpression` that
`visit_import_expression` distinguishes: a plain string literal, a template
literal (its quasis, the number of interpolated expressions, and its span),
or any other expression. -/
inductive ImportExprArg where
  | stringLiteral (lit : StringLiteral)
  | templateLiteral (quasis : List TemplateQuasi) (exprCount : Nat) (span : Span)
  | other
deriving DecidableEq

/-- The four syntactic forms visited by `DependencyCollector`, listed in the
order `walk_program` reaches them (source order). An
`ExportNamedDeclaration` carries an optional source module. -/
inductive AstNode where
  | importDecl (source : StringLiteral)
  | exportNamedDecl (source : Option StringLiteral)
  | exportAllDecl (source : StringLiteral)
  | importExpr (source : ImportExprArg) (span : Span)
deriving DecidableEq

/-- A parsed `oxc` program, as far as the collector observes it: the
resolved script/module classification and the visited nodes in source
order. -/
structure Program where
  sourceTypeIsScript : Bool
  nodes : List AstNode
deriving DecidableEq

/-- `deno_graph::analysis::StaticDependencyKind` (Import / Export). -/
inductive StaticDependencyKind where
  | Import
  | Export
deriving DecidableEq

/-- `deno_graph::analysis::StaticDependencyDescriptor` (the fields the
collector populates; `types_specifier` and `import_attributes` are always
left at their defaults by this code and are omitted). -/
structure StaticDependencyDescriptor where
  kind : StaticDependencyKind
  specifier : List Nat
  specifier_range : PositionRange
deriving DecidableEq

/-- `deno_graph::analysis::DynamicTemplatePart`. -/
inductive DynamicTemplatePart where
  | str (value : List Nat)
  | expr
deriving DecidableEq

/-- `deno_graph::analysis::DynamicArgument`. -/
inductive DynamicArgument where
  | str (value : List Nat)
  | template (parts : List DynamicTemplatePart)
  | expr
deriving DecidableEq

/-- `deno_graph::analysis::DynamicDependencyDescriptor` (kind is always
`DynamicDependencyKind::Import` here; defaulted fields omitted). -/
structure DynamicDependencyDescriptor where
  argument : DynamicArgument
  argument_range : PositionRange
deriving DecidableEq

/-- `deno_graph::analysis::DependencyDescriptor`. -/
inductive DependencyDescriptor where
  | static (d : StaticDependencyDescriptor)
  | dynamic (d : DynamicDependencyDescriptor)
deriving DecidableEq

/-- `DependencyCollector::visit_import_expression` (module_analyzer.rs):
classify the argument. Note the template case first pushes one `String`
part per quasi (cooked value, empty on none) and then one `Expr` part per
interpolated expression. -/
def visit_import_expression (source : List Nat) (arg : ImportExprArg) (nodeSpan : Span) :
    DynamicDependencyDescriptor :=
  match arg with
  | .stringLiteral lit =>
    { argument := .str lit.value
      argument_range := span_to_position_range source lit.span }
  | .templateLiteral quasis exprCount tplSpan =>
    { argument := .template
        ((quasis.map fun q => DynamicTemplatePart.str (q.cooked.getD []))
          ++ List.replicate exprCount DynamicTemplatePart.expr)
      argument_range := span_to_position_range source tplSpan }
  | .other =>
    { argument := .expr
      argument_range := span_to_position_range source nodeSpan }

/-- The descriptors `DependencyCollector` emits for one visited node:
`visit_import_declaration`, `visit_export_named_declaration` (only when a
source module is present), `visit_export_all_declaration`,
`visit_import_expression`. -/
def visitNode (source : List Nat) : AstNode → List DependencyDescriptor
  | .importDecl lit =>
    [.static { kind := .Import
               specifier := lit.value
               specifier_range := span_to_position_range source lit.span }]
  | .exportNamedDecl none => []
  | .exportNamedDecl (some lit) =>
    [.static { kind := .Export
               specifier := lit.value
               specifier_range := span_to_position_range source lit.span }]
  | .exportAllDecl lit =>
    [.static { kind := .Export
               specifier := lit.value
               specifier_range := span_to_position_range source lit.span }]
  | .importExpr arg nodeSpan => [.dynamic (visit_import_expression source arg nodeSpan)]

/-- `walk_program` driving `DependencyCollector`: the dependency descriptors
of a parsed program, in source order. -/
def collectDependencies (source : List Nat) (p : Program) : List DependencyDescriptor :=
  p.nodes.flatMap (visitNode source)

/-- The document of the C1 scenario. -/
def c1Doc : List Nat :=
  asciiBytes ("import a from \"./a.js\"; export * from \"./b.js\"; const x = await import(`./c-$\x7bid\x7d.js`);")

/-- The oxc parse of the C1 document, as observed by the collector: an
imported-module declaration, an export-all declaration, and a dynamic import whose
argument is a template literal with quasis `./c-` and `.js` around one
interpolated expression. Spans are the byte spans of the literal tokens. -/
def c1Program : Program :=
  { sourceTypeIsScript := false
    nodes :=
      [ .importDecl { value := asciiBytes ("./a.js"), span := { start := 14, stop := 22 } }
      , .exportAllDecl { value := asciiBytes ("./b.js"), span := { start := 38, stop := 46 } }
      , .importExpr
          (.templateLiteral
            [ { cooked := some (asciiBytes ("./c-")) }, { cooked := some (asciiBytes (".js")) } ]
            1
            { start := 71, stop := 85 })
          { start := 64, stop := 86 } ] }

/-- C1 (code bug): for the scenario document the extractor yields the
Static/Import `./a.js`, the Static/Export `./b.js` and the Dynamic/Import
in source order, but the template parts come out as
`[String "./c-", String ".js", Expr]` — all literal segments first, then
all placeholders — not alternating in source order as
`[String "./c-", Expr, String ".js"]`: `visit_import_expression` pushes
every quasi before any expression placeholder. -/
theorem c1_dynamic_template_parts_order :
    collectDependencies c1Doc c1Program
      = [ .static { kind := .Import
                    specifier := asciiBytes ("./a.js")
                    specifier_range := { start := { line := 0, character := 14 }
                                         stop := { line := 0, character := 22 } } }
        , .static { kind := .Export
                    specifier := asciiBytes ("./b.js")
                    specifier_range := { start := { line := 0, character := 38 }
                                         stop := { line := 0, character := 46 } } }
        , .dynamic { argument := .template
                       [ .str (asciiBytes ("./c-")), .str (asciiBytes (".js")),
                         DynamicTemplatePart.expr ]
                     argument_range := { start := { line := 0, character := 71 }
                                         stop := { line := 0, character := 85 } } } ]
    ∧ [ DynamicTemplatePart.str (asciiBytes ("./c-")), .str (asciiBytes (".js")),
        DynamicTemplatePart.expr ]
      ≠ [ DynamicTemplatePart.str (asciiBytes ("./c-")), DynamicTemplatePart.expr,
          .str (asciiBytes (".js")) ] := by
  constructor
  · decide
  · decide

/-- Specification-side: the byte offset of the start of line `n` of
`source` (one past the `n`-th newline; saturates at the end of the text). -/
def nthLineStart : List Nat → Nat → Nat
  | _, 0 => 0
  | [], _ + 1 => 0
  | b :: rest, n + 1 =>
    if b = 10 then 1 + nthLineStart rest n else 1 + nthLineStart rest (n + 1)

/-- Specification-side: the byte offset a (line, character) position denotes
in `source` — "slicing the document at a position". -/
def positionToByteIndex (source : List Nat) (p : Position) : Nat :=
  nthLineStart source p.line + p.character

/-- Specification-side: the bytes of `source` between the byte offsets
denoted by the two positions of `r` — "slicing the document at a range". -/
def sliceAtPositionRange (source : List Nat) (r : PositionRange) : List Nat :=
  (source.take (positionToByteIndex source r.stop)).drop (positionToByteIndex source r.start)

theorem lastLineStartFrom_shift (l : List Nat) :
    ∀ i acc k, lastLineStartFrom l (i + k) (acc + k) = lastLineStartFrom l i acc + k := by
  induction l with
  | nil => intro i acc k; simp [lastLineStartFrom]
  | cons b rest ih =>
    intro i acc k
    simp only [lastLineStartFrom]
    by_cases hb : b = 10
    · rw [if_pos hb, if_pos hb]
      have h1 : i + k + 1 = (i + 1) + k := by omega
      rw [h1]
      exact ih (i + 1) (i + 1) k
    · rw [if_neg hb, if_neg hb]
      have h1 : i + k + 1 = (i + 1) + k := by omega
      rw [h1]
      exact ih (i + 1) acc k

theorem lastLineStartFrom_no_newline (l : List Nat) :
    ∀ i acc, l.count 10 = 0 → lastLineStartFrom l i acc = acc := by
  induction l with
  | nil => intro i acc _; rfl
  | cons b rest ih =>
    intro i acc hc
    rw [List.count_cons] at hc
    by_cases hb : b = 10
    · simp [hb] at hc
    · simp only [lastLineStartFrom, if_neg hb]
      exact ih (i + 1) acc (by omega)

theorem lastLineStartFrom_acc_irrel (l : List Nat) :
    ∀ i acc acc', l.count 10 ≠ 0 → lastLineStartFrom l i acc = lastLineStartFrom l i acc' := by
  induction l with
  | nil => intro i acc acc' hc; simp [List.count_nil] at hc
  | cons b rest ih =>
    intro i acc acc' hc
    simp only [lastLineStartFrom]
    by_cases hb : b = 10
    · rw [if_pos hb, if_pos hb]
    · rw [if_neg hb, if_neg hb]
      apply ih
      rw [List.count_cons] at hc
      simpa [hb] using hc

theorem lastLineStartFrom_one_one (q : List Nat) :
    lastLineStartFrom q 1 1 = lastLineStart q + 1 := by
  have h := lastLineStartFrom_shift q 0 0 1
  simpa [lastLineStart] using h

theorem nthLineStart_append (p : List Nat) :
    ∀ t, nthLineStart (p ++ t) (p.count 10) = lastLineStart p := by
  induction p with
  | nil => intro t; simp [nthLineStart, lastLineStart, lastLineStartFrom]
  | cons b q ih =>
    intro t
    by_cases hb : b = 10
    · subst hb
      have hcount : ((10 : Nat) :: q).count 10 = q.count 10 + 1 := by
        simp [List.count_cons]
      rw [hcount, List.cons_append]
      have hnth : nthLineStart (10 :: (q ++ t)) (q.count 10 + 1)
          = 1 + nthLineStart (q ++ t) (q.count 10) := by
        simp [nthLineStart]
      rw [hnth, ih t]
      have h0 : lastLineStart ((10 : Nat) :: q) = lastLineStartFrom q 1 1 := by
        simp [lastLineStart, lastLineStartFrom]
      rw [h0, lastLineStartFrom_one_one]
      omega
    · have hcount : ((b : Nat) :: q).count 10 = q.count 10 := by
        simp [List.count_cons, hb]
      rw [hcount]
      have h0 : lastLineStart (b :: q) = lastLineStartFrom q 1 0 := by
        simp [lastLineStart, lastLineStartFrom, hb]
      rcases hcq : q.count 10 with _ | c
      · have hnth : nthLineStart ((b :: q) ++ t) 0 = 0 := by
          simp [nthLineStart]
        rw [hnth, h0, lastLineStartFrom_no_newline q 1 0 hcq]
      · rw [List.cons_append]
        have hnth : nthLineStart (b :: (q ++ t)) (c + 1)
            = 1 + nthLineStart (q ++ t) (c + 1) := by
          simp [nthLineStart, hb]
        rw [hnth, ← hcq, ih t, h0]
        rw [lastLineStartFrom_acc_irrel q 1 0 1 (by omega)]
        rw [lastLineStartFrom_one_one]
        omega

theorem lastLineStartFrom_le (l : List Nat) :
    ∀ i acc, lastLineStartFrom l i acc ≤ max acc (i + l.length) := by
  induction l with
  | nil => intro i acc; simp [lastLineStartFrom]
  | cons b rest ih =>
    intro i acc
    by_cases hb : b = 10
    · simp only [lastLineStartFrom, if_pos hb]
      have := ih (i + 1) (i + 1)
      simp only [List.length_cons]
      omega
    · simp only [lastLineStartFrom, if_neg hb]
      have := ih (i + 1) acc
      simp only [List.length_cons]
      omega

theorem lastLineStart_le (l : List Nat) : lastLineStart l ≤ l.length := by
  have := lastLineStartFrom_le l 0 0
  unfold lastLineStart
  omega

/-- The position mapping inverts: converting any byte offset to a
(line, character) position and back recovers the offset. -/
theorem positionToByteIndex_round (s : List Nat) (o : Nat) :
    positionToByteIndex s (byte_index_to_position s o) = o := by
  rw [byte_index_to_position_eq]
  unfold positionToByteIndex
  simp only
  have hsplit := List.take_append_drop o s
  have hcount : (s.take o).count 10 = ((s.take o).count 10) := rfl
  calc nthLineStart s ((s.take o).count 10) + (o - lastLineStart (s.take o))
      = nthLineStart (s.take o ++ s.drop o) ((s.take o).count 10)
          + (o - lastLineStart (s.take o)) := by rw [hsplit]
    _ = lastLineStart (s.take o) + (o - lastLineStart (s.take o)) := by
          rw [nthLineStart_append (s.take o) (s.drop o)]
    _ = o := by
          have h1 : lastLineStart (s.take o) ≤ (s.take o).length := lastLineStart_le _
          have h2 : (s.take o).length ≤ o := by
            rw [List.length_take]; omega
          omega

/-- Slicing the document at the reported range of a span recovers exactly
the bytes of the span. -/
theorem sliceAtPositionRange_span (source : List Nat) (sp : Span) :
    sliceAtPositionRange source (span_to_position_range source sp)
      = (source.take sp.stop).drop sp.start := by
  unfold sliceAtPositionRange span_to_position_range
  simp only
  rw [positionToByteIndex_round, positionToByteIndex_round]

/-- The oxc parser's span convention for string literals: the span covers
the whole quoted token, so slicing the document at the span yields a quote
byte (0x22 or 0x27), the literal value, and the closing quote. -/
def litSpanQuoted (source : List Nat) (lit : StringLiteral) : Prop :=
  (source.take lit.span.stop).drop lit.span.start = 34 :: (lit.value ++ [34])
  ∨ (source.take lit.span.stop).drop lit.span.start = 39 :: (lit.value ++ [39])

instance (source : List Nat) (lit : StringLiteral) : Decidable (litSpanQuoted source lit) :=
  inferInstanceAs
    (Decidable ((source.take lit.span.stop).drop lit.span.start = 34 :: (lit.value ++ [34])
      ∨ (source.take lit.span.stop).drop lit.span.start = 39 :: (lit.value ++ [39])))

/-- The parser's span convention over one node: every specifier literal's
span slices to the quoted literal token. -/
def nodeSpansQuoted (source : List Nat) : AstNode → Prop
  | .importDecl lit => litSpanQuoted source lit
  | .exportNamedDecl (some lit) => litSpanQuoted source lit
  | .exportNamedDecl none => True
  | .exportAllDecl lit => litSpanQuoted source lit
  | .importExpr (.stringLiteral lit) _ => litSpanQuoted source lit
  | .importExpr (.templateLiteral _ _ _) _ => True
  | .importExpr .other _ => True

instance (source : List Nat) (n : AstNode) : Decidable (nodeSpansQuoted source n) :=
  match n with
  | .importDecl lit => inferInstanceAs (Decidable (litSpanQuoted source lit))
  | .exportNamedDecl (some lit) => inferInstanceAs (Decidable (litSpanQuoted source lit))
  | .exportNamedDecl none => inferInstanceAs (Decidable True)
  | .exportAllDecl lit => inferInstanceAs (Decidable (litSpanQuoted source lit))
  | .importExpr (.stringLiteral lit) _ => inferInstanceAs (Decidable (litSpanQuoted source lit))
  | .importExpr (.templateLiteral _ _ _) _ => inferInstanceAs (Decidable True)
  | .importExpr .other _ => inferInstanceAs (Decidable True)

/-- The (quote-inclusive) round-trip property of one emitted descriptor:
re-slicing the document at the reported range reproduces the original
quoted specifier literal token (for static descriptors and String-argument
dynamic descriptors). -/
def descriptorRangeQuoted (source : List Nat) : DependencyDescriptor → Prop
  | .static sd =>
    sliceAtPositionRange source sd.specifier_range = 34 :: (sd.specifier ++ [34])
    ∨ sliceAtPositionRange source sd.specifier_range = 39 :: (sd.specifier ++ [39])
  | .dynamic dd =>
    ∀ v, dd.argument = .str v →
      sliceAtPositionRange source dd.argument_range = 34 :: (v ++ [34])
      ∨ sliceAtPositionRange source dd.argument_range = 39 :: (v ++ [39])

/-- C4 counterexample: the claim as stated (ranges exclude the quotes and
re-slice to the bare specifier) is false on the real, quote-inclusive oxc
parse of the C1 document: the emitted Static/Import descriptor carries
range (0,14)-(0,22), and slicing the document there yields the quoted
token, not the specifier value. -/
theorem c4_specifier_range_counterexample :
    DependencyDescriptor.static
        { kind := .Import
          specifier := asciiBytes ("./a.js")
          specifier_range := { start := { line := 0, character := 14 }
                               stop := { line := 0, character := 22 } } }
      ∈ collectDependencies c1Doc c1Program
    ∧ sliceAtPositionRange c1Doc
          { start := { line := 0, character := 14 }
            stop := { line := 0, character := 22 } }
        = asciiBytes ("\"./a.js\"")
    ∧ sliceAtPositionRange c1Doc
          { start := { line := 0, character := 14 }
            stop := { line := 0, character := 22 } }
        ≠ asciiBytes ("./a.js") := by
  refine ⟨by decide, by decide, by decide⟩

/-- C4 (amended): oxc string-literal spans cover the quoted token, so for
every document and parse following that convention, every static
descriptor and every String-argument dynamic descriptor the collector
emits has a PositionRange that re-slices the document to exactly the
original quoted specifier literal token (quote byte, the specifier value,
closing quote); the specifier value is the slice minus its first and last
byte. -/
theorem c4_specifier_range_quoted_round_trip (source : List Nat) (p : Program)
    (h : ∀ n ∈ p.nodes, nodeSpansQuoted source n) :
    ∀ d ∈ collectDependencies source p, descriptorRangeQuoted source d := by
  intro d hd
  unfold collectDependencies at hd
  rw [List.mem_flatMap] at hd
  obtain ⟨n, hn, hdn⟩ := hd
  have hwf := h n hn
  cases n with
  | importDecl lit =>
    simp only [visitNode, List.mem_singleton] at hdn
    subst hdn
    show sliceAtPositionRange source (span_to_position_range source lit.span)
          = 34 :: (lit.value ++ [34])
        ∨ sliceAtPositionRange source (span_to_position_range source lit.span)
          = 39 :: (lit.value ++ [39])
    rw [sliceAtPositionRange_span]
    exact hwf
  | exportNamedDecl src =>
    cases src with
    | none => simp [visitNode] at hdn
    | some lit =>
      simp only [visitNode, List.mem_singleton] at hdn
      subst hdn
      show sliceAtPositionRange source (span_to_position_range source lit.span)
            = 34 :: (lit.value ++ [34])
          ∨ sliceAtPositionRange source (span_to_position_range source lit.span)
            = 39 :: (lit.value ++ [39])
      rw [sliceAtPositionRange_span]
      exact hwf
  | exportAllDecl lit =>
    simp only [visitNode, List.mem_singleton] at hdn
    subst hdn
    show sliceAtPositionRange source (span_to_position_range source lit.span)
          = 34 :: (lit.value ++ [34])
        ∨ sliceAtPositionRange source (span_to_position_range source lit.span)
          = 39 :: (lit.value ++ [39])
    rw [sliceAtPositionRange_span]
    exact hwf
  | importExpr arg nodeSpan =>
    simp only [visitNode, List.mem_singleton] at hdn
    subst hdn
    cases arg with
    | stringLiteral lit =>
      intro v hv
      simp only [visit_import_expression] at hv ⊢
      cases hv
      rw [sliceAtPositionRange_span]
      exact hwf
    | templateLiteral quasis exprCount tplSpan =>
      intro v hv
      simp [visit_import_expression] at hv
    | other =>
      intro v hv
      simp [visit_import_expression] at hv

/-- The document of the C4 witness. -/
def c4Doc : List Nat :=
  asciiBytes ("import a from \"./x.js\";")

/-- The oxc parse of the C4 witness document, with the quote-inclusive
token span, as the real parser reports it. -/
def c4Program : Program :=
  { sourceTypeIsScript := false
    nodes := [ .importDecl { value := asciiBytes ("./x.js"), span := { start := 14, stop := 22 } } ] }

/-- Witness for C4 (amended): the quote-inclusive span convention holds for
the concrete document and the emitted import descriptor re-slices to the
quoted token. -/
theorem c4_quoted_round_trip_witness :
    descriptorRangeQuoted c4Doc
      (.static { kind := .Import
                 specifier := asciiBytes ("./x.js")
                 specifier_range := { start := { line := 0, character := 14 }
                                      stop := { line := 0, character := 22 } } }) :=
  c4_specifier_range_quoted_round_trip c4Doc c4Program (by decide)
    (.static { kind := .Import
               specifier := asciiBytes ("./x.js")
               specifier_range := { start := { line := 0, character := 14 }
                                    stop := { line := 0, character := 22 } } })
    (by decide)

/-- A header map, modelled as an ordered list of (name, value) pairs of
character lists. -/
abbrev Headers := List (List Char × List Char)

/-- The typed fetch response `parse_response` (http_client.rs) hands to the
classifiers: numeric status, body bytes, headers. -/
structure Response where
  status : Nat
  body : List Nat
  headers : Headers
deriving DecidableEq

/-- `deno_cache_dir::file_fetcher::SendResponse` (success side of
`send_no_follow`). -/
inductive SendResponse where
  | notModified
  | redirect (headers : Headers)
  | success (headers : Headers) (body : List Nat)
deriving DecidableEq

/-- The error side of `send_no_follow` (`SendError`): not-found, an
unexpected status code (the external `StatusCode` type is modelled by the
numeric code it carries), or a transport failure message. -/
inductive SendErr where
  | notFound
  | statusCode (code : Nat)
  | failed (msg : List Char)
deriving DecidableEq

/-- `StatusCode::from_u16` (the http crate type re-exported by
deno_cache_dir): constructing a status code succeeds exactly for values in
100..=999. -/
def statusCode_from_u16 (c : Nat) : Option Nat :=
  if 100 ≤ c ∧ c ≤ 999 then some c else none

/-- The status-code match of `WasmHttpClient::send_no_follow`
(http_client.rs), arms in source order: 304, 300..=399, 404, 200..=299,
otherwise `StatusCode::from_u16(status).unwrap()`. The unwrap panics when
the status is not representable (outside 100..=999); the panic is modelled
as `none`, a returned classification as `some`. -/
def send_no_follow (r : Response) : Option (Except SendErr SendResponse) :=
  if r.status = 304 then some (.ok .notModified)
  else if 300 ≤ r.status ∧ r.status ≤ 399 then some (.ok (.redirect r.headers))
  else if r.status = 404 then some (.error .notFound)
  else if 200 ≤ r.status ∧ r.status ≤ 299 then some (.ok (.success r.headers r.body))
  else (statusCode_from_u16 r.status).map fun code => .error (.statusCode code)

/-- C3 counterexample: a response with status 50 (accepted by
`parse_response`, outside every recognized band) does not yield
StatusError(50) as the claim states — the fallback arm's
`StatusCode::from_u16(50).unwrap()` panics (modelled as `none`). -/
theorem c3_generic_classification_counterexample :
    send_no_follow { status := 50, body := [], headers := [] } = none
    ∧ send_no_follow { status := 50, body := [], headers := [] }
        ≠ some (.error (.statusCode 50))
    ∧ (50 : Nat) ≠ 304 ∧ ¬(300 ≤ (50 : Nat) ∧ (50 : Nat) ≤ 399)
    ∧ (50 : Nat) ≠ 404 ∧ ¬(200 ≤ (50 : Nat) ∧ (50 : Nat) ≤ 299) := by
  refine ⟨rfl, ?_, by decide, by decide, by decide, by decide⟩
  intro h
  rw [show send_no_follow { status := 50, body := [], headers := [] } = none from rfl] at h
  exact Option.noConfusion h

/-- C3 (amended): generic-loader classification: 304 is NotModified;
300–399 other than 304 is Redirect with the response headers; 404 is
NotFound; 200–299 is Success with headers and body; every other status in
100..=999 is StatusError carrying the code; any other status reaching the
fallback arm (below 100 or above 999) panics in
`StatusCode::from_u16(..).unwrap()` instead of returning a
classification. -/
theorem c3_generic_classification (r : Response) :
    (r.status = 304 → send_no_follow r = some (.ok .notModified))
    ∧ (300 ≤ r.status → r.status ≤ 399 → r.status ≠ 304 →
        send_no_follow r = some (.ok (.redirect r.headers)))
    ∧ (r.status = 404 → send_no_follow r = some (.error .notFound))
    ∧ (200 ≤ r.status → r.status ≤ 299 →
        send_no_follow r = some (.ok (.success r.headers r.body)))
    ∧ (r.status ≠ 304 → ¬(300 ≤ r.status ∧ r.status ≤ 399) → r.status ≠ 404 →
        ¬(200 ≤ r.status ∧ r.status ≤ 299) → 100 ≤ r.status → r.status ≤ 999 →
        send_no_follow r = some (.error (.statusCode r.status)))
    ∧ (r.status ≠ 304 → ¬(300 ≤ r.status ∧ r.status ≤ 399) → r.status ≠ 404 →
        ¬(200 ≤ r.status ∧ r.status ≤ 299) → ¬(100 ≤ r.status ∧ r.status ≤ 999) →
        send_no_follow r = none) := by
  unfold send_no_follow statusCode_from_u16
  refine ⟨?_, ?_, ?_, ?_, ?_, ?_⟩
  · intro h; rw [if_pos h]
  · intro h1 h2 h3
    rw [if_neg h3, if_pos ⟨h1, h2⟩]
  · intro h
    rw [if_neg (by omega), if_neg (by omega), if_pos h]
  · intro h1 h2
    rw [if_neg (by omega), if_neg (by omega), if_neg (by omega), if_pos ⟨h1, h2⟩]
  · intro h1 h2 h3 h4 h5 h6
    rw [if_neg h1, if_neg h2, if_neg h3, if_neg h4, if_pos ⟨h5, h6⟩]
    rfl
  · intro h1 h2 h3 h4 h5
    rw [if_neg h1, if_neg h2, if_neg h3, if_neg h4, if_neg h5]
    rfl

/-- Witness for C3 (amended) at status 304. -/
theorem c3_generic_classification_witness :
    send_no_follow { status := 304, body := [], headers := [] }
      = some (.ok .notModified) :=
  (c3_generic_classification { status := 304, body := [], headers := [] }).1 rfl

/-- `deno_graph::MediaType` (the 18 variants). -/
inductive MediaType where
  | JavaScript
  | Jsx
  | Mjs
  | Cjs
  | TypeScript
  | Mts
  | Cts
  | Dts
  | Dmts
  | Dcts
  | Tsx
  | Css
  | Json
  | Html
  | Sql
  | Wasm
  | SourceMap
  | Unknown
deriving DecidableEq, Fintype

/-- `media_type_to_u8` (lib.rs): the wire serialization of media types. -/
def media_type_to_u8 : MediaType → Nat
  | .JavaScript => 0
  | .Jsx => 1
  | .Mjs => 2
  | .Cjs => 3
  | .TypeScript => 4
  | .Mts => 5
  | .Cts => 6
  | .Dts => 7
  | .Dmts => 8
  | .Dcts => 9
  | .Tsx => 10
  | .Css => 11
  | .Json => 12
  | .Html => 13
  | .Sql => 14
  | .Wasm => 15
  | .SourceMap => 16
  | .Unknown => 17

/-- C9: the wire codes of the 18 media-type variants are exactly
JavaScript=0 … Unknown=17, and the mapping is injective, so every variant
is recovered from its numeric code. -/
theorem c9_media_type_wire_codes :
    (media_type_to_u8 .JavaScript = 0 ∧ media_type_to_u8 .Jsx = 1
      ∧ media_type_to_u8 .Mjs = 2 ∧ media_type_to_u8 .Cjs = 3
      ∧ media_type_to_u8 .TypeScript = 4 ∧ media_type_to_u8 .Mts = 5
      ∧ media_type_to_u8 .Cts = 6 ∧ media_type_to_u8 .Dts = 7
      ∧ media_type_to_u8 .Dmts = 8 ∧ media_type_to_u8 .Dcts = 9
      ∧ media_type_to_u8 .Tsx = 10 ∧ media_type_to_u8 .Css = 11
      ∧ media_type_to_u8 .Json = 12 ∧ media_type_to_u8 .Html = 13
      ∧ media_type_to_u8 .Sql = 14 ∧ media_type_to_u8 .Wasm = 15
      ∧ media_type_to_u8 .SourceMap = 16 ∧ media_type_to_u8 .Unknown = 17)
    ∧ ∀ a b : MediaType, media_type_to_u8 a = media_type_to_u8 b → a = b := by
  constructor
  · decide
  · decide

/-- Witness for C9: round-tripping `Dts` through the injectivity direction. -/
theorem c9_media_type_wire_codes_witness : MediaType.Dts = MediaType.Dts :=
  c9_media_type_wire_codes.2 MediaType.Dts MediaType.Dts rfl

/-- `oxc::span::SourceType` as the analyzer configures it: the four flags
set by `OxcModuleAnalyzer::analyze`. The defaults stand for
`SourceType::default()`; the analyzed claims do not depend on their exact
values. -/
structure SourceType where
  unambiguous : Bool := false
  module : Bool := true
  typescript : Bool := false
  jsx : Bool := false
deriving DecidableEq

def SourceType.with_unambiguous (st : SourceType) (b : Bool) : SourceType :=
  { st with unambiguous := b }

def SourceType.with_module (st : SourceType) (b : Bool) : SourceType :=
  { st with module := b }

def SourceType.with_typescript (st : SourceType) (b : Bool) : SourceType :=
  { st with typescript := b }

def SourceType.with_jsx (st : SourceType) (b : Bool) : SourceType :=
  { st with jsx := b }

/-- The `match media_type` dialect selection of `OxcModuleAnalyzer::analyze`
(module_analyzer.rs); `none` is the early unsupported-media-type error
return for Json, Css, Html, Wasm, Sql, SourceMap and Unknown. -/
def sourceTypeFor : MediaType → Option SourceType
  | .JavaScript => some (SourceType.with_unambiguous {} true)
  | .Mjs => some (SourceType.with_module {} true)
  | .Cjs => some (SourceType.with_module {} false)
  | .Jsx => some (SourceType.with_jsx (SourceType.with_module {} true) true)
  | .TypeScript => some (SourceType.with_typescript (SourceType.with_unambiguous {} true) true)
  | .Mts => some (SourceType.with_typescript (SourceType.with_module {} true) true)
  | .Cts => some (SourceType.with_typescript (SourceType.with_module {} false) true)
  | .Tsx => some (SourceType.with_jsx (SourceType.with_typescript (SourceType.with_unambiguous {} true) true) true)
  | .Dts => some (SourceType.with_typescript (SourceType.with_unambiguous {} true) true)
  | .Dmts => some (SourceType.with_typescript (SourceType.with_module {} true) true)
  | .Dcts => some (SourceType.with_typescript (SourceType.with_module {} true) true)
  | .Json => none
  | .Css => none
  | .Html => none
  | .Wasm => none
  | .Sql => none
  | .SourceMap => none
  | .Unknown => none

/-- `deno_graph::analysis::ModuleInfo` (the fields this analyzer populates;
the remaining fields are always defaulted and are omitted). -/
structure ModuleInfo where
  is_script : Bool
  dependencies : List DependencyDescriptor
deriving DecidableEq

/-- `oxc::parser::ParserReturn` as the analyzer observes it: the recovered
program and the parser's error list. -/
structure ParserReturn where
  program : Program
  errors : List (List Char)
deriving DecidableEq

/-- `OxcModuleAnalyzer::analyze` (module_analyzer.rs), parameterized over
the external oxc parser. Note it never inspects `parser_return.errors`. -/
def analyze (parse : SourceType → List Nat → ParserReturn)
    (media_type : MediaType) (source_text : List Nat) : Except (List Char) ModuleInfo :=
  match sourceTypeFor media_type with
  | none => .error (("Unsupported media type for analysis").data)
  | some source_type =>
    let parser_return := parse source_type source_text
    .ok { is_script := parser_return.program.sourceTypeIsScript
          dependencies := collectDependencies source_text parser_return.program }

/-- The C5 failing input: a syntactically invalid document. -/
def c5Src : List Nat :=
  asciiBytes ("import \x7b")

/-- The oxc recovery parser's result on the C5 failing input: an empty
recovered program together with a non-empty error list. -/
def c5Parse : SourceType → List Nat → ParserReturn :=
  fun _ _ =>
    { program := { sourceTypeIsScript := false, nodes := [] }
      errors := [("Unexpected end of file").data] }

/-- C5 (code bug): on a genuine syntax error the parser reports errors,
yet `analyze` succeeds for the supported media type — `analyze` never
inspects `parser_return.errors`, so parse errors are silently swallowed
instead of propagating as a ParseError; the unsupported-media-type half of
the claim does hold (shown here for Json). -/
theorem c5_parse_errors_swallowed :
    (c5Parse {} c5Src).errors ≠ []
    ∧ analyze c5Parse MediaType.JavaScript c5Src
        = .ok { is_script := false, dependencies := [] }
    ∧ analyze c5Parse MediaType.Json c5Src
        = .error (("Unsupported media type for analysis").data) := by
  refine ⟨?_, rfl, rfl⟩
  decide

/-- Rust `Path::join` as used by `parse_entrypoint`. Modelled from the
spec: an absolute second path replaces the first; otherwise the entry is
appended to the working directory with a separator. -/
def pathJoin (cwd entry : List Char) : List Char :=
  if ("/").data.isPrefixOf entry then entry else cwd ++ ("/").data ++ entry

/-- Split a path on '/' separators. -/
def splitSlash : List Char → List (List Char)
  | [] => [[]]
  | c :: rest =>
    if c = '/' then [] :: splitSlash rest
    else
      match splitSlash rest with
      | [] => [[c]]
      | s :: ss => (c :: s) :: ss

/-- Modelled from the spec: `deno_path_util::url_from_file_path` — an
absolute filesystem path is converted to a `file:` specifier over its
normalized path components (empty and `.` components dropped, as the url
crate's component iteration does); any other path is an invalid-path
error. -/
def url_from_file_path (path : List Char) : Except (List Char) (List Char) :=
  if ("/").data.isPrefixOf path then
    .ok (("file://").data
      ++ (((splitSlash path).filter fun s => !s.isEmpty && !(s == (".").data)).map
            fun s => '/' :: s).flatten)
  else
    .error (("invalid path").data)

/-- `parse_entrypoint` (lib.rs): entrypoints prefixed `jsr:`, `https:` or
`file:` are parsed verbatim as absolute specifiers (`Url::parse`, modelled
from the spec as returning the specifier text verbatim); every other
entrypoint is joined against the working directory and converted to a
`file:` specifier. -/
def parse_entrypoint (entrypoint cwd : List Char) : Except (List Char) (List Char) :=
  if ("jsr:").data.isPrefixOf entrypoint
      || ("https:").data.isPrefixOf entrypoint
      || ("file:").data.isPrefixOf entrypoint then
    .ok entrypoint
  else
    url_from_file_path (pathJoin cwd entrypoint)

/-- C8: entrypoints prefixed `jsr:`, `https:` or `file:` parse verbatim;
all others are joined against the working directory and converted to a
`file:` specifier, failing with an invalid-path error when the joined path
cannot be represented; `"./a.ts"` with cwd `/proj` yields
`file:///proj/a.ts`. -/
theorem c8_parse_entrypoint_spec (text cwd : List Char) :
    ((("jsr:").data.isPrefixOf text || ("https:").data.isPrefixOf text
        || ("file:").data.isPrefixOf text) = true →
      parse_entrypoint text cwd = .ok text)
    ∧ ((("jsr:").data.isPrefixOf text || ("https:").data.isPrefixOf text
        || ("file:").data.isPrefixOf text) = false →
      parse_entrypoint text cwd = url_from_file_path (pathJoin cwd text))
    ∧ (∀ p : List Char, ("/").data.isPrefixOf p = false →
        url_from_file_path p = .error (("invalid path").data))
    ∧ parse_entrypoint ("./a.ts").data ("/proj").data = .ok (("file:///proj/a.ts").data) := by
  refine ⟨?_, ?_, ?_, ?_⟩
  · intro h
    unfold parse_entrypoint
    rw [if_pos h]
  · intro h
    unfold parse_entrypoint
    rw [if_neg (by simp [h])]
  · intro p hp
    unfold url_from_file_path
    rw [if_neg (by simp [hp])]
  · rfl

/-- Witness for C8: a `jsr:` entrypoint parses verbatim. -/
theorem c8_parse_entrypoint_witness :
    parse_entrypoint ("jsr:@std/fmt").data ("/proj").data = .ok (("jsr:@std/fmt").data) :=
  (c8_parse_entrypoint_spec ("jsr:@std/fmt").data ("/proj").data).1 (by decide)

/-- A UTF-8 continuation byte (10xxxxxx). -/
abbrev utf8Cont (b : Nat) : Prop := 128 ≤ b ∧ b ≤ 191

/-- Valid second/third byte pair condition for a three-byte sequence with
lead `b` (excludes overlong forms and surrogates). -/
abbrev utf8Valid3 (b b2 b3 : Nat) : Prop :=
  (if b = 224 then 160 else 128) ≤ b2 ∧ b2 ≤ (if b = 237 then 159 else 191) ∧ utf8Cont b3

/-- Valid trailing bytes condition for a four-byte sequence with lead `b`
(excludes overlong forms and codepoints above U+10FFFF). -/
abbrev utf8Valid4 (b b2 b3 b4 : Nat) : Prop :=
  (if b = 240 then 144 else 128) ≤ b2 ∧ b2 ≤ (if b = 244 then 143 else 191)
    ∧ utf8Cont b3 ∧ utf8Cont b4

/-- Decode a two-byte sequence with lead `b` from the remaining bytes. -/
def decode2 (b : Nat) (rest : List Nat) : Option (Nat × List Nat) :=
  match rest with
  | b2 :: r2 =>
    if utf8Cont b2 then some ((b - 192) * 64 + (b2 - 128), r2) else none
  | [] => none

/-- Decode a three-byte sequence with lead `b` from the remaining bytes. -/
def decode3 (b : Nat) (rest : List Nat) : Option (Nat × List Nat) :=
  match rest with
  | b2 :: b3 :: r3 =>
    if utf8Valid3 b b2 b3 then
      some ((b - 224) * 4096 + (b2 - 128) * 64 + (b3 - 128), r3)
    else none
  | _ => none

/-- Decode a four-byte sequence with lead `b` from the remaining bytes. -/
def decode4 (b : Nat) (rest : List Nat) : Option (Nat × List Nat) :=
  match rest with
  | b2 :: b3 :: b4 :: r4 =>
    if utf8Valid4 b b2 b3 b4 then
      some ((b - 240) * 262144 + (b2 - 128) * 4096 + (b3 - 128) * 64 + (b4 - 128), r4)
    else none
  | _ => none

/-- Decode one UTF-8 scalar from the front of the byte list: the codepoint
and the remaining bytes, or `none` when the front is not a valid (shortest
form, non-surrogate, in-range) sequence. -/
def decodeOne (l : List Nat) : Option (Nat × List Nat) :=
  match l with
  | [] => none
  | b :: rest =>
    if b ≤ 127 then some (b, rest)
    else if 194 ≤ b ∧ b ≤ 223 then decode2 b rest
    else if 224 ≤ b ∧ b ≤ 239 then decode3 b rest
    else if 240 ≤ b ∧ b ≤ 244 then decode4 b rest
    else none

/-- Modelled from the spec: Rust `String::from_utf8_lossy` — UTF-8
decoding to a codepoint list where every invalid sequence is replaced by
U+FFFD (65533); this model emits one replacement per rejected lead byte.
The fuel argument (instantiated with the list length) only drives the
recursion. Never fails. -/
def utf8LossyGo : Nat → List Nat → List Nat
  | 0, _ => []
  | _ + 1, [] => []
  | fuel + 1, b :: rest =>
    match decodeOne (b :: rest) with
    | some (cp, r) => cp :: utf8LossyGo fuel r
    | none => 65533 :: utf8LossyGo fuel rest

/-- Rust `String::from_utf8_lossy`, modelled from the spec (see
`utf8LossyGo`). -/
def utf8Lossy (l : List Nat) : List Nat :=
  utf8LossyGo l.length l

/-- Strict UTF-8 decoding (same stepping as `utf8LossyGo`): the codepoint
list when the bytes are valid UTF-8, `none` otherwise. -/
def utf8DecodeGo : Nat → List Nat → Option (List Nat)
  | 0, _ => some []
  | _ + 1, [] => some []
  | fuel + 1, b :: rest =>
    match decodeOne (b :: rest) with
    | some (cp, r) => (utf8DecodeGo fuel r).map fun t => cp :: t
    | none => none

/-- Strict UTF-8 decoding of a byte list. -/
def utf8Decode? (l : List Nat) : Option (List Nat) :=
  utf8DecodeGo l.length l

theorem decode2_shrinks (b : Nat) (rest : List Nat) (cp : Nat) (r : List Nat)
    (h : decode2 b rest = some (cp, r)) : r.length < rest.length := by
  rcases rest with _ | ⟨b2, r2⟩
  · simp [decode2] at h
  · simp only [decode2] at h
    split_ifs at h
    cases h
    simp

theorem decode3_shrinks (b : Nat) (rest : List Nat) (cp : Nat) (r : List Nat)
    (h : decode3 b rest = some (cp, r)) : r.length < rest.length := by
  rcases rest with _ | ⟨b2, _ | ⟨b3, r3⟩⟩
  · simp [decode3] at h
  · simp [decode3] at h
  · simp only [decode3] at h
    split_ifs at h
    cases h
    simp only [List.length_cons]
    omega

theorem decode4_shrinks (b : Nat) (rest : List Nat) (cp : Nat) (r : List Nat)
    (h : decode4 b rest = some (cp, r)) : r.length < rest.length := by
  rcases rest with _ | ⟨b2, _ | ⟨b3, _ | ⟨b4, r4⟩⟩⟩
  · simp [decode4] at h
  · simp [decode4] at h
  · simp [decode4] at h
  · simp only [decode4] at h
    split_ifs at h
    cases h
    simp only [List.length_cons]
    omega

theorem decodeOne_shrinks (l : List Nat) (cp : Nat) (r : List Nat)
    (h : decodeOne l = some (cp, r)) : r.length < l.length := by
  rcases l with _ | ⟨b, rest⟩
  · simp [decodeOne] at h
  · simp only [decodeOne] at h
    split_ifs at h with h1 h2 h3 h4
    · cases h
      simp
    · have := decode2_shrinks b rest cp r h
      simp only [List.length_cons]
      omega
    · have := decode3_shrinks b rest cp r h
      simp only [List.length_cons]
      omega
    · have := decode4_shrinks b rest cp r h
      simp only [List.length_cons]
      omega

theorem utf8GoFaithful (fuel : Nat) :
    ∀ l : List Nat, l.length ≤ fuel →
      (∀ cps, utf8DecodeGo fuel l = some cps → utf8LossyGo fuel l = cps)
      ∧ (utf8DecodeGo fuel l = none → 65533 ∈ utf8LossyGo fuel l) := by
  induction fuel with
  | zero =>
    intro l hl
    have hnil : l = [] := List.length_eq_zero.mp (Nat.le_zero.mp hl)
    subst hnil
    constructor
    · intro cps h
      simp only [utf8DecodeGo] at h
      cases h
      rfl
    · intro h
      simp [utf8DecodeGo] at h
  | succ n ih =>
    intro l hl
    rcases l with _ | ⟨b, rest⟩
    · constructor
      · intro cps h
        simp only [utf8DecodeGo] at h
        cases h
        rfl
      · intro h
        simp [utf8DecodeGo] at h
    · have hrest : rest.length ≤ n := by
        simp only [List.length_cons] at hl
        omega
      simp only [utf8DecodeGo, utf8LossyGo]
      rcases hdec : decodeOne (b :: rest) with _ | ⟨cp, r⟩
      · constructor
        · intro cps h
          simp at h
        · intro _
          exact List.mem_cons_self _ _
      · have hr : r.length ≤ n := by
          have := decodeOne_shrinks (b :: rest) cp r hdec
          simp only [List.length_cons] at this
          omega
        constructor
        · intro cps h
          simp only [Option.map_eq_some'] at h
          obtain ⟨t, hd, rfl⟩ := h
          show cp :: utf8LossyGo n r = cp :: t
          rw [(ih r hr).1 t hd]
        · intro h
          simp only [Option.map_eq_none'] at h
          show 65533 ∈ cp :: utf8LossyGo n r
          exact List.mem_cons_of_mem _ ((ih r hr).2 h)

/-- `utf8Lossy` agrees with strict decoding on valid UTF-8 and contains a
U+FFFD replacement whenever strict decoding fails. -/
theorem utf8LossyFaithful (l : List Nat) :
    (∀ cps, utf8Decode? l = some cps → utf8Lossy l = cps)
    ∧ (utf8Decode? l = none → 65533 ∈ utf8Lossy l) :=
  utf8GoFaithful l.length l (Nat.le_refl _)

/-- `LoadResponse` (lib.rs): specifier text, wire media-type code, and the
decoded source text (as a codepoint list). -/
structure LoadResponse where
  specifier : List Char
  media_type : Nat
  code : List Nat
deriving DecidableEq

/-- The file returned by `fetch_bypass_permissions`: its final URL and raw
body bytes (headers are consumed only by the external media-type
computation, which is a parameter here). -/
structure FetchedFile where
  url : List Char
  source : List Nat
deriving DecidableEq

/-- The shapes of `self.graph.get(&url)` that `load_inner` (lib.rs)
distinguishes: a JS module (already-decoded text and media type), a JSON
module, a Wasm module, and the npm/node/external references the graph does
not inline. `source` of the first two is the already-decoded text as a
codepoint list. -/
inductive GraphModule where
  | js (specifier : List Char) (source : List Nat) (media_type : MediaType)
  | json (specifier : List Char) (source : List Nat)
  | wasm
  | npm
  | node
  | external
deriving DecidableEq

/-- `DenoPlugin::load_inner` (lib.rs), parameterized over the graph lookup
result, the fetch outcome and the externally computed
`MediaType::from_specifier_and_headers` value. For npm/node/external
modules and specifiers absent from the graph it fetches and decodes the
body with `String::from_utf8_lossy`. -/
def load_inner (graphModule : Option GraphModule)
    (fetched : Except (List Char) FetchedFile)
    (mediaTypeFromHeaders : MediaType) : Except (List Char) (Option LoadResponse) :=
  match graphModule with
  | some (.js specifier source media_type) =>
    .ok (some { specifier := specifier
                media_type := media_type_to_u8 media_type
                code := source })
  | some (.json specifier source) =>
    .ok (some { specifier := specifier
                media_type := media_type_to_u8 MediaType.Json
                code := source })
  | some .wasm => .error (("Wasm is not supported.").data)
  | some .npm | some .node | some .external | none =>
    match fetched with
    | .error e => .error e
    | .ok file =>
      .ok (some { specifier := file.url
                  media_type := media_type_to_u8 mediaTypeFromHeaders
                  code := utf8Lossy file.source })

/-- C10: for a specifier absent from the graph or resolving to an
npm/node/external module, a successful fetch always yields a LoadResponse
whose code is the lossily decoded body — load never fails on invalid
UTF-8: the lossy decoding agrees with strict decoding on valid input and
substitutes U+FFFD on invalid input. -/
theorem c10_load_lossy_decoding (g : Option GraphModule) (file : FetchedFile)
    (mt : MediaType)
    (hg : g = some .npm ∨ g = some .node ∨ g = some .external ∨ g = none) :
    load_inner g (.ok file) mt
      = .ok (some { specifier := file.url
                    media_type := media_type_to_u8 mt
                    code := utf8Lossy file.source })
    ∧ (∀ cps, utf8Decode? file.source = some cps → utf8Lossy file.source = cps)
    ∧ (utf8Decode? file.source = none → 65533 ∈ utf8Lossy file.source) := by
  refine ⟨?_, (utf8LossyFaithful file.source).1, (utf8LossyFaithful file.source).2⟩
  rcases hg with rfl | rfl | rfl | rfl <;> rfl

/-- Witness for C10: a fetch of a not-in-graph specifier whose body is the
invalid byte 0xFF followed by "a". -/
theorem c10_load_lossy_decoding_witness :
    load_inner none (.ok { url := ("https://example.com/x.js").data, source := [255, 97] })
        MediaType.JavaScript
      = .ok (some { specifier := ("https://example.com/x.js").data
                    media_type := media_type_to_u8 MediaType.JavaScript
                    code := utf8Lossy [255, 97] })
    ∧ (∀ cps, utf8Decode? [255, 97] = some cps → utf8Lossy [255, 97] = cps)
    ∧ (utf8Decode? [255, 97] = none → 65533 ∈ utf8Lossy [255, 97]) :=
  c10_load_lossy_decoding none
    { url := ("https://example.com/x.js").data, source := [255, 97] }
    MediaType.JavaScript (Or.inr (Or.inr (Or.inr rfl)))
